import Mathlib

/-
Verification development for the racestrategy repository.

This file shallowly embeds the parts of the TypeScript source that the
claims are about:

* `mergeCompetitorData` and `calculateTruePace` from
  `src/components/index.ts` (cross-source reconciliation engine and
  flag-aware pace analyzer);
* `updatePositionsAtLap` from the race-replay component (replay
  reconstructor), including its lap lookup, carry-forward, comparator
  and position reassignment;
* the SignalR subscription bookkeeping and `resubscribe` logic from
  `CarStrategyDashboard.tsx` (live connection manager), together with
  `decompressMessage` and a concrete base64 codec;
* the `TokenManager` from the auth module (credential/token manager).

JavaScript numbers are modelled as `Nat`/`Int`; where the code can
produce the JavaScript value `Infinity` (via `x || Infinity`) the type
`JNum` makes that value explicit.  Floating-point division performed by
the pace analyzer is modelled with exact rationals; the lap times in
question are integers, so the two agree on everything the claims state.
JS falsiness of `0`, `""`, `null`/`undefined` is modelled explicitly in
the `jsOr*` helpers.
-/

/-- A JavaScript number that is either an ordinary nonnegative integer
(millisecond values in this code base) or the special value `Infinity`,
which `mergeCompetitorData` can produce via `x || Infinity`. -/
inductive JNum where
  | num (n : Nat)
  | inf
  deriving DecidableEq, Repr

/-- JS `a || b` for strings: the empty string is falsy. -/
def jsOrStr (a b : String) : String := if a = "" then b else a

/-- JS `a || b` for optional strings: `undefined` and `""` are falsy. -/
def jsOrOptStr (a b : Option String) : Option String :=
  match a with
  | some s => if s = "" then b else some s
  | none => b

/-- JS `a || b` for nonnegative numbers: `0` is falsy. -/
def jsOrNat (a b : Nat) : Nat := if a = 0 then b else a

/-- JS `x || Infinity` on a `JNum`: `0` is falsy, everything else is kept. -/
def jsOrInf : JNum → JNum
  | .num 0 => .inf
  | x => x

/-- JS `x || 0` on a `JNum`.  `Infinity` is truthy, and when `x` is `0` the
result is again `0`, so this is the identity; it is kept to mirror the
source expression `Math.min(...) || 0` exactly. -/
def jsOrZero : JNum → JNum
  | .num 0 => .num 0
  | x => x

/-- `Math.min` on two `JNum`s. -/
def jmin : JNum → JNum → JNum
  | .inf, y => y
  | .num a, .inf => .num a
  | .num a, .num b => .num (min a b)

/-- Unified per-lap record (`UnifiedLapData` in `types/racemonitor.ts`). -/
structure UnifiedLapData where
  transponder : String
  carNumber : String
  lapNumber : Nat
  lapTime : Nat
  position : Nat
  flagStatus : String
  totalTime : Nat
  source : String
  deriving DecidableEq, Repr

/-- Data-source marker of a unified competitor; an absent field is falsy,
so it is modelled as `false`. -/
structure Sources where
  redmist : Bool
  racemonitor : Bool
  deriving DecidableEq, Repr

/-- Canonical merged competitor record (`UnifiedCompetitor` in
`types/racemonitor.ts`).  Optional fields are `Option`s; `bestLapTime` is
a `JNum` because merging can produce `Infinity`. -/
structure UnifiedCompetitor where
  transponder : String
  carNumber : String
  driverName : String
  teamName : Option String
  className : Option String
  position : Nat
  classPosition : Option Nat
  laps : Nat
  lastLapTime : Nat
  bestLapTime : JNum
  totalTime : Nat
  pitCount : Option Nat
  inPit : Option Bool
  flagStatus : Option String
  lapHistory : Option (List UnifiedLapData)
  sources : Sources
  deriving DecidableEq

/-- The merge of two non-null unified competitor records, translated
field by field from `mergeCompetitorData` in `src/components/index.ts`
(the body of the final `return` statement).  `redmist` is provider A,
`raceMonitor` is provider B. -/
def mergeUC (redmist raceMonitor : UnifiedCompetitor) : UnifiedCompetitor :=
  { transponder := jsOrStr redmist.transponder raceMonitor.transponder
    carNumber := jsOrStr redmist.carNumber raceMonitor.carNumber
    driverName := jsOrStr redmist.driverName raceMonitor.driverName
    teamName := jsOrOptStr redmist.teamName raceMonitor.teamName
    className := jsOrOptStr redmist.className raceMonitor.className
    position := jsOrNat redmist.position raceMonitor.position
    classPosition := redmist.classPosition
    laps := max redmist.laps raceMonitor.laps
    lastLapTime := jsOrNat redmist.lastLapTime raceMonitor.lastLapTime
    bestLapTime :=
      jsOrZero (jmin (jsOrInf redmist.bestLapTime) (jsOrInf raceMonitor.bestLapTime))
    totalTime := jsOrNat raceMonitor.totalTime redmist.totalTime
    pitCount := redmist.pitCount
    inPit := redmist.inPit
    flagStatus := redmist.flagStatus
    lapHistory := raceMonitor.lapHistory
    sources := { redmist := true, racemonitor := true } }

/-- `mergeCompetitorData`, including its null handling. -/
def mergeCompetitorData :
    Option UnifiedCompetitor → Option UnifiedCompetitor → Option UnifiedCompetitor
  | none, none => none
  | none, some b => some b
  | some a, none => some a
  | some a, some b => some (mergeUC a b)

/-- Result record of `calculateTruePace`.  The source reports
`consistency = Math.sqrt(variance)`; the square root of a rational is
kept as the variance so that the embedding stays executable — the claims
under verification only concern `truePace` and `sampleSize`. -/
structure TruePaceResult where
  truePace : ℚ
  variance : ℚ
  sampleSize : Nat
  deriving DecidableEq

/-- Arithmetic mean of a list of rationals (`reduce((a,b) => a+b) / length`). -/
def listMeanQ (xs : List ℚ) : ℚ := xs.sum / xs.length

/-- `calculateTruePace` from `src/components/index.ts`, translated
statement by statement.  Note the guard `times.length > 3` on the
outlier filter and the strict comparison `t < avg * 1.5`. -/
def calculateTruePace (lapHistory : List UnifiedLapData) (excludeOutliers : Bool) :
    TruePaceResult :=
  let greenLaps := lapHistory.filter fun l => l.flagStatus == "green"
  if greenLaps.length = 0 then ⟨0, 0, 0⟩
  else
    let times0 : List ℚ := greenLaps.map fun l => (l.lapTime : ℚ)
    let times :=
      if excludeOutliers ∧ 3 < times0.length then
        let avg := listMeanQ times0
        times0.filter fun t => t < avg * 1.5
      else times0
    let truePace := listMeanQ times
    let variance := (times.map fun t => (t - truePace) * (t - truePace)).sum / times.length
    ⟨truePace, variance, times.length⟩

/-- The fields of a `CarPosition` record (`types/redmist.ts`) that the
replay reconstructor touches.  `null` and `undefined` are both `none`;
where a JavaScript `NaN` could flow into the `l` field (only on the
carry-forward path, from an unparsable `ln` string) it is also folded
into `none`, which agrees with the observable behaviour of the sort and
lookup code because `NaN` fails every strict equality and poisons every
subtraction there. -/
structure CarPos where
  n : Option String
  c : Option String
  l : Option Int
  ln : Option String
  llo : Option Int
  ovp : Option Int
  p : Option Int
  llp : Option Int
  ltm : Option String
  deriving DecidableEq, Repr

/-- Per-car replay input (`CarLapData` in the race-replay component). -/
structure CarLapData where
  carNumber : String
  teamName : Option String
  className : Option String
  laps : List CarPos
  deriving DecidableEq, Repr

/-- JS `parseInt` on a character list, restricted to base-10 inputs:
skip leading spaces, an optional sign, then the longest digit run;
`NaN` (here `none`) when no digit is found.  The lap-number and
lap-time strings this code parses are plain decimal. -/
def parseIntChars (cs0 : List Char) : Option Int :=
  let cs := cs0.dropWhile fun ch => ch = ' '
  match cs with
  | '-' :: rest =>
    let d := rest.takeWhile Char.isDigit
    if d = [] then none
    else some (-(d.foldl (fun a ch => a * 10 + (ch.toNat - 48)) 0 : Nat))
  | '+' :: rest =>
    let d := rest.takeWhile Char.isDigit
    if d = [] then none
    else some ((d.foldl (fun a ch => a * 10 + (ch.toNat - 48)) 0 : Nat))
  | _ =>
    let d := cs.takeWhile Char.isDigit
    if d = [] then none
    else some ((d.foldl (fun a ch => a * 10 + (ch.toNat - 48)) 0 : Nat))

/-- JS `parseInt` on a string. -/
def parseIntJS (s : String) : Option Int := parseIntChars s.toList

/-- JS `a || b` where `a` is an optional string and `b` a plain string. -/
def jsOrStrOpt (a : Option String) (b : String) : String :=
  match a with
  | some s => if s = "" then b else s
  | none => b

/-- The lap number of a record: `rec.l ?? parseInt(rec.ln || '0')`. -/
def jsLapNum (rec : CarPos) : Option Int :=
  match rec.l with
  | some v => some v
  | none => parseIntJS (jsOrStrOpt rec.ln "0")

/-- JS `String.prototype.split` with a single-character separator,
written structurally over character lists (the split result is never
empty, matching JS, where splitting `""` yields `[""]`). -/
def splitOnChar (sep : Char) : List Char → List (List Char)
  | [] => [[]]
  | c :: rest =>
    let r := splitOnChar sep rest
    if c = sep then [] :: r
    else
      match r with
      | h :: t => (c :: h) :: t
      | [] => [[c]]

/-- JS `ms?.slice(0, 3) || '0'` on the fractional part of a lap time. -/
def msSlice (ms : Option (List Char)) : List Char :=
  match ms with
  | none => ['0']
  | some t =>
    let t3 := t.take 3
    if t3 = [] then ['0'] else t3

/-- `parseLapTimeToMs` from the race-replay component: `MM:SS.mmm` or
`HH:MM:SS.mmm` to milliseconds, `0` for missing input and for any other
shape, `NaN` (`none`) when a numeric part fails to parse. -/
def parseLapTimeToMs (timeStr : Option String) : Option Int :=
  match timeStr with
  | none => some 0
  | some s =>
    if s = "" then some 0
    else
      match splitOnChar ':' s.toList with
      | [mins, secPart] =>
        let sp := splitOnChar '.' secPart
        let secs := sp.headD []
        (parseIntChars mins).bind fun m =>
          (parseIntChars secs).bind fun s2 =>
            (parseIntChars (msSlice (sp.get? 1))).map fun ms3 =>
              m * 60000 + s2 * 1000 + ms3
      | [hours, mins, secPart] =>
        let sp := splitOnChar '.' secPart
        let secs := sp.headD []
        (parseIntChars hours).bind fun h =>
          (parseIntChars mins).bind fun m =>
            (parseIntChars secs).bind fun s2 =>
              (parseIntChars (msSlice (sp.get? 1))).map fun ms3 =>
                h * 3600000 + m * 60000 + s2 * 1000 + ms3
      | _ => some 0

/-- JS strict inequality `x !== y` on numbers that may be `NaN` (`none`):
`NaN` is unequal to everything, itself included. -/
def jsStrictNeq (x y : Option Int) : Bool :=
  match x, y with
  | some a, some b => a != b
  | _, _ => true

/-- Subtraction of possibly-`NaN` numbers; `NaN` propagates. -/
def subOpt (x y : Option Int) : Option Int :=
  match x, y with
  | some a, some b => some (a - b)
  | _, _ => none

/-- Interpretation of a JS comparator return value by `Array.prototype.sort`:
negative sorts the first argument earlier, positive later, and `0`
— or `NaN`, which is neither negative nor positive — leaves the stable
order. -/
def numCmpd : Option Int → Ordering
  | none => .eq
  | some d => if d < 0 then .lt else if 0 < d then .gt else .eq

/-- The recorded-position sort key `a.ovp ?? a.p ?? a.llo ?? 999`. -/
def keyPos (a : CarPos) : Int := ((a.ovp).orElse fun _ => (a.p).orElse fun _ => a.llo).getD 999

/-- The sort comparator of `updatePositionsAtLap`, translated clause by
clause: laps completed descending, then recorded position ascending when
both are usable (distinct and neither the 999 sentinel), then lap time
ascending. -/
def compareCars (a b : CarPos) : Ordering :=
  let lA := jsLapNum a
  let lB := jsLapNum b
  if jsStrictNeq lA lB then numCmpd (subOpt lB lA)
  else
    let pA := keyPos a
    let pB := keyPos b
    if pA ≠ pB ∧ pA ≠ 999 ∧ pB ≠ 999 then numCmpd (some (pA - pB))
    else numCmpd (subOpt (parseLapTimeToMs a.ltm) (parseLapTimeToMs b.ltm))

/-- Strict "sorts earlier" test derived from the comparator. -/
def carsLT (a b : CarPos) : Bool := compareCars a b == Ordering.lt

/-- Stable insertion of `x` into `l`: `x` goes in front of the first
element that does not sort strictly earlier than it. -/
def insertSorted (lt : α → α → Bool) (x : α) : List α → List α
  | [] => [x]
  | y :: ys => if lt y x then y :: insertSorted lt x ys else x :: y :: ys

/-- Stable sort by a strict comparator.  `Array.prototype.sort` is
specified to be stable, so for a consistent comparator this produces the
same list as the engine; it is structural, hence kernel-executable. -/
def sortByJS (lt : α → α → Bool) (l : List α) : List α := l.foldr (insertSorted lt) []

/-- The position the found-record path stamps onto the snapshot entry:
`lapEntry.llo ?? lapEntry.ovp ?? lapEntry.p ?? lapEntry.llp`. -/
def posAtLapFields (e : CarPos) : Option Int :=
  (e.llo).orElse fun _ => (e.ovp).orElse fun _ => (e.p).orElse fun _ => e.llp

/-- The snapshot entry built from a found lap record: the spread
`{...lapEntry, n, c, ovp: positionAtLap, p: positionAtLap}`. -/
def foundEntry (car : CarLapData) (e : CarPos) : CarPos :=
  { e with n := some car.carNumber, c := car.className,
           ovp := posAtLapFields e, p := posAtLapFields e }

/-- The carried-forward snapshot entry built from a car's last completed
record; its `l` field is re-stamped with
`lastLap.l ?? parseInt(lastLap.ln || '0')` (the trailing
`?? carData.laps.length` of the source is dead code because `parseInt`
always returns a number). -/
def carriedEntry (car : CarLapData) (lastLap : CarPos) : CarPos :=
  { lastLap with n := some car.carNumber, c := car.className, l := jsLapNum lastLap }

/-- JS array indexing with a possibly negative index. -/
def jsIndex (xs : List CarPos) (i : Int) : Option CarPos :=
  if i < 0 then none else xs.get? i.toNat

/-- The per-car body of the `for` loop of `updatePositionsAtLap`:
direct index lookup when the history is long enough, then a linear
search for an explicit matching lap number, then the carry-forward
branch for a car with some history that has not reached `lap`; `none`
when the car contributes no entry. -/
def candidateFor (lap : Nat) (car : CarLapData) : Option CarPos :=
  let direct : Option CarPos :=
    if car.laps.length ≥ lap then jsIndex car.laps ((lap : Int) - 1) else none
  let found : Option CarPos :=
    match direct with
    | some e => some e
    | none => car.laps.find? fun l => jsLapNum l == some (lap : Int)
  match found with
  | some e => some (foundEntry car e)
  | none =>
    match car.laps.getLast? with
    | some lastLap => if car.laps.length < lap then some (carriedEntry car lastLap) else none
    | none => none

/-- The unsorted candidate set of `updatePositionsAtLap`. -/
def candidatesAtLap (lap : Nat) (lapData : List CarLapData) : List CarPos :=
  lapData.filterMap (candidateFor lap)

/-- The final `forEach` of `updatePositionsAtLap`: display positions are
reassigned sequentially from 1, overwriting `p` and `ovp`. -/
def reassignPositions (cars : List CarPos) : List CarPos :=
  cars.enum.map fun pr => { pr.2 with p := some ((pr.1 : Int) + 1), ovp := some ((pr.1 : Int) + 1) }

/-- `updatePositionsAtLap`: build the candidate set, sort it with the
comparator, reassign display positions. -/
def updatePositionsAtLap (lap : Nat) (lapData : List CarLapData) : List CarPos :=
  reassignPositions (sortByJS carsLT (candidatesAtLap lap lapData))

/-- Well-formed replay input: every lap record carries the explicit lap
number matching its 1-based array position, which is the array-position
convention the data model states for lap histories. -/
def wfCar (car : CarLapData) : Bool :=
  car.laps.enum.all fun pr => pr.2.l == some ((pr.1 : Int) + 1)

/-- Well-formedness of a whole replay input. -/
def wfData (d : List CarLapData) : Bool := d.all wfCar

/-- A subscribe/unsubscribe remote call of the SignalR client in
`CarStrategyDashboard.tsx`. -/
inductive SubAction where
  | subEvent (e : Int)
  | unsubEvent (e : Int)
  | subCtrl (e : Int)
  | unsubCtrl (e : Int)
  | subInCar (e : Int) (car : String)
  | unsubInCar (e : Int) (car : String)
  deriving DecidableEq, Repr

/-- The subscription bookkeeping the client object keeps: the two
mutable fields `subscribedEventId` and `subscribedCar`.  Control-log
subscriptions have no corresponding field. -/
structure HubState where
  subscribedEventId : Option Int
  subscribedCar : Option String
  deriving DecidableEq, Repr

/-- Initial bookkeeping state (both fields `null`). -/
def initHub : HubState := ⟨none, none⟩

/-- State effect of each subscribe/unsubscribe method (the successful
path; on a transport error the assignments after `await` do not run and
the state is unchanged, which this model does not need to distinguish).
`subscribeToControlLogs` and `unsubscribeFromControlLogs` record
nothing. -/
def hubStep (s : HubState) : SubAction → HubState
  | .subEvent e => { s with subscribedEventId := some e }
  | .unsubEvent e =>
    if s.subscribedEventId = some e then { s with subscribedEventId := none } else s
  | .subCtrl _ => s
  | .unsubCtrl _ => s
  | .subInCar _ car => { s with subscribedCar := some car }
  | .unsubInCar _ car =>
    if s.subscribedCar = some car then { s with subscribedCar := none } else s

/-- Bookkeeping state after a history of subscription calls. -/
def runHub (h : List SubAction) : HubState := h.foldl hubStep initHub

/-- The subscribe calls `resubscribe()` issues after a reconnection:
`subscribeToEvent` and `subscribeToControlLogs` when `subscribedEventId`
is truthy (a nonzero id), then `subscribeToInCarDriverEvent` when
additionally `subscribedCar` is truthy (a nonempty string). -/
def resubscribeCalls (s : HubState) : List SubAction :=
  (match s.subscribedEventId with
   | some e => if e = 0 then [] else [SubAction.subEvent e, SubAction.subCtrl e]
   | none => []) ++
  (match s.subscribedEventId, s.subscribedCar with
   | some e, some car => if e = 0 ∨ car = "" then [] else [SubAction.subInCar e car]
   | _, _ => [])

/-- Modelled from the spec: the event subscription that is active after
a call history — a `subscribeToEvent` makes its event the active one and
a matching `unsubscribeFromEvent` deactivates it.  Defined directly on
histories, independent of the client's bookkeeping fields. -/
def activeEventAfter (h : List SubAction) : Option Int :=
  h.foldl
    (fun acc a =>
      match a with
      | .subEvent e => some e
      | .unsubEvent e => if acc = some e then none else acc
      | _ => acc)
    none

/-- Modelled from the spec: the in-car subscription (identified by its
car) active after a call history. -/
def activeCarAfter (h : List SubAction) : Option String :=
  h.foldl
    (fun acc a =>
      match a with
      | .subInCar _ car => some car
      | .unsubInCar _ car => if acc = some car then none else acc
      | _ => acc)
    none

/-- Modelled from the spec: whether the control-log subscription for
event `e` is active after a call history — `subscribeToControlLogs e`
activates it, `unsubscribeFromControlLogs e` explicitly deactivates
it. -/
def activeCtrlAfter (h : List SubAction) (e : Int) : Bool :=
  h.foldl
    (fun acc a =>
      match a with
      | .subCtrl x => if x = e then true else acc
      | .unsubCtrl x => if x = e then false else acc
      | _ => acc)
    false

/-- The standard base64 alphabet. -/
def b64Table : List Char :=
  "ABCDEFGHIJKLMNOPQRSTUVWXYZabcdefghijklmnopqrstuvwxyz0123456789+/".toList

/-- The base64 character for a 6-bit value. -/
def encB64 (k : Nat) : Char := b64Table.getD k '?'

/-- The 6-bit value of a base64 character (`none` for a character
outside the alphabet, padding included). -/
def decB64 (c : Char) : Option Nat := List.findIdx? (fun x => x == c) b64Table

/-- Base64 encoding of a byte list (what `btoa` produces and `atob`
consumes); the arithmetic forms are the usual bit extractions written
with division and remainder. -/
def b64EncodeChars : List Nat → List Char
  | [] => []
  | [a] => [encB64 (a / 4), encB64 (a % 4 * 16), '=', '=']
  | [a, b] => [encB64 (a / 4), encB64 (a % 4 * 16 + b / 16), encB64 (b % 16 * 4), '=']
  | a :: b :: c :: rest =>
    encB64 (a / 4) :: encB64 (a % 4 * 16 + b / 16) :: encB64 (b % 16 * 4 + c / 64) ::
      encB64 (c % 64) :: b64EncodeChars rest

/-- Base64 decoding back to bytes (`atob` followed by `charCodeAt` over
the result, as `decompressMessage` does); padding is accepted only at
the end of the input, as `atob` requires. -/
def b64DecodeChars : List Char → Option (List Nat)
  | [] => some []
  | c1 :: c2 :: c3 :: c4 :: rest =>
    (decB64 c1).bind fun e1 =>
      (decB64 c2).bind fun e2 =>
        if c3 = '=' ∧ c4 = '=' ∧ rest = [] then some [e1 * 4 + e2 / 16]
        else
          (decB64 c3).bind fun e3 =>
            if c4 = '=' ∧ rest = [] then some [e1 * 4 + e2 / 16, e2 % 16 * 16 + e3 / 4]
            else
              (decB64 c4).bind fun e4 =>
                (b64DecodeChars rest).map fun tail =>
                  (e1 * 4 + e2 / 16) :: (e2 % 16 * 16 + e3 / 4) :: (e3 % 4 * 64 + e4) :: tail
  | _ => none

/-- The magic-prefix test `message.startsWith('H4sI')` (messages are
modelled as character lists). -/
def hasMagic (m : List Char) : Bool :=
  match m with
  | 'H' :: '4' :: 's' :: 'I' :: _ => true
  | _ => false

/-- `decompressMessage` from `CarStrategyDashboard.tsx`, with the two
external codecs as parameters: when the message starts with `H4sI` it is
base64-decoded, decompressed (`pako.inflate`, the `inflate` parameter)
and JSON-parsed (the `parse` parameter); otherwise it is JSON-parsed
directly. -/
def decompressMessage {α : Type} (inflate : List Nat → Option (List Char))
    (parse : List Char → Option α) (m : List Char) : Option α :=
  if hasMagic m then (b64DecodeChars m).bind fun bytes => (inflate bytes).bind parse
  else parse m

/-- Client credentials (`AuthConfig` in the auth module). -/
structure AuthConfig where
  clientId : String
  clientSecret : String
  deriving DecidableEq, Repr

/-- Outcome of one credential-exchange network call. -/
inductive ExchangeResult where
  | ok (accessToken : String) (expiresIn : Int)
  | httpError (status : Nat) (body : String)
  deriving DecidableEq, Repr

deriving instance DecidableEq for Except

/-- The mutable fields of the `TokenManager` singleton.  The pending
`refreshPromise` is modelled by the settled result an awaiting caller
would receive. -/
structure TMState where
  accessToken : Option String
  tokenExpiry : Option Int
  refreshInFlight : Option (Except String String)
  config : Option AuthConfig
  deriving DecidableEq

/-- `TOKEN_REFRESH_MARGIN` (30 s). -/
def TOKEN_REFRESH_MARGIN : Int := 30000

/-- The cached-token guard of `getToken`:
`this.accessToken && this.tokenExpiry && Date.now() < this.tokenExpiry - TOKEN_REFRESH_MARGIN`
— a nonempty token, a nonzero expiry, and more than the margin left. -/
def tokenIsValid (s : TMState) (now : Int) : Bool :=
  match s.accessToken, s.tokenExpiry with
  | some t, some e => t != "" && e != 0 && decide (now < e - TOKEN_REFRESH_MARGIN)
  | _, _ => false

/-- `refreshToken`: fail when unconfigured, fail on a non-ok exchange
response, otherwise cache `{token, expiry = now + expires_in * 1000}`,
notify listeners with the new token, and return it.  The result triple
is (caller-visible result, new state, notifications sent). -/
def refreshToken (s : TMState) (now : Int) (exchange : AuthConfig → ExchangeResult) :
    Except String String × TMState × List (Option String) :=
  match s.config with
  | none => (Except.error "Token manager not configured. Call configure() first.", s, [])
  | some cfg =>
    match exchange cfg with
    | .httpError status body =>
      (Except.error ("Authentication failed: " ++ toString status ++ " " ++ body), s, [])
    | .ok tok expiresIn =>
      (Except.ok tok,
       { s with accessToken := some tok, tokenExpiry := some (now + expiresIn * 1000) },
       [some tok])

/-- `getToken`: return the cached token when still valid beyond the
margin; otherwise await an in-flight refresh if there is one; otherwise
run `refreshToken`, clearing the in-flight marker in the `finally`
whether it succeeded or failed. -/
def getToken (s : TMState) (now : Int) (exchange : AuthConfig → ExchangeResult) :
    Except String String × TMState × List (Option String) :=
  if tokenIsValid s now then (Except.ok (s.accessToken.getD ""), s, [])
  else
    match s.refreshInFlight with
    | some r => (r, s, [])
    | none =>
      let res := refreshToken s now exchange
      (res.1, { res.2.1 with refreshInFlight := none }, res.2.2)

/-- Lap-record builder used in concrete examples: lap number, time, flag. -/
def mkLap (n t : Nat) (flag : String) : UnifiedLapData :=
  ⟨"", "", n, t, 0, flag, 0, "racemonitor"⟩

/-- The lap history of the spec's true-pace example. -/
def exampleLaps : List UnifiedLapData :=
  [mkLap 1 90000 "green", mkLap 2 91000 "green", mkLap 3 140000 "yellow", mkLap 4 200000 "green"]

lemma truePace_le3 (laps : List UnifiedLapData)
    (hne : (laps.filter fun l => l.flagStatus == "green") ≠ [])
    (hle : (laps.filter fun l => l.flagStatus == "green").length ≤ 3) :
    (calculateTruePace laps true).truePace =
      listMeanQ ((laps.filter fun l => l.flagStatus == "green").map fun l => (l.lapTime : ℚ)) := by
  have hlen : ¬ (laps.filter fun l => l.flagStatus == "green").length = 0 := by
    simpa [List.length_eq_zero] using hne
  unfold calculateTruePace
  rw [if_neg hlen]
  dsimp only
  rw [if_neg]
  simp only [List.length_map, not_and]
  intro
  omega

lemma truePace_gt3 (laps : List UnifiedLapData)
    (hgt : 3 < (laps.filter fun l => l.flagStatus == "green").length) :
    (calculateTruePace laps true).truePace =
      listMeanQ
        (((laps.filter fun l => l.flagStatus == "green").map fun l => (l.lapTime : ℚ)).filter
          fun t =>
            t < listMeanQ ((laps.filter fun l => l.flagStatus == "green").map
                  fun l => (l.lapTime : ℚ)) * 1.5) := by
  have hlen : ¬ (laps.filter fun l => l.flagStatus == "green").length = 0 := by omega
  unfold calculateTruePace
  rw [if_neg hlen]
  dsimp only
  rw [if_pos]
  exact ⟨rfl, by simpa [List.length_map] using hgt⟩

/-- C1, counterexample: on the spec's own example history — green 90000,
green 91000, yellow 140000, green 200000 — the outlier filter does not
run, because there are only 3 green laps and the filter is guarded by
`times.length > 3`; true pace is the plain green mean 127000 ms, not the
claimed 90500 ms. -/
theorem c1_counterexample :
    (calculateTruePace exampleLaps true).truePace = 127000 ∧
    (calculateTruePace exampleLaps true).truePace ≠ 90500 := by
  have hfilter : exampleLaps.filter (fun l => l.flagStatus == "green") =
      [mkLap 1 90000 "green", mkLap 2 91000 "green", mkLap 4 200000 "green"] := by decide
  have h := truePace_le3 exampleLaps (by decide) (by decide)
  rw [hfilter] at h
  simp only [List.map_cons, List.map_nil, mkLap, listMeanQ] at h
  norm_num at h
  exact ⟨h, by rw [h]; norm_num⟩

/-- C1 (amended): with outlier exclusion enabled, true pace is the mean
of green-flag laps with the outlier filter applied only when there are
more than 3 green laps, and an outlier is a green lap whose time is
greater than or equal to 1.5 times the unfiltered green mean (the code
keeps `t < avg * 1.5`, a strict bound); with 3 or fewer green laps no
outlier is excluded and true pace is the plain green mean — so on the
spec's 3-green-lap example the 200000 ms lap is not excluded.  The
computation is a single pass: compute mean, filter, done. -/
theorem c1_true_pace (laps : List UnifiedLapData)
    (hne : (laps.filter fun l => l.flagStatus == "green") ≠ []) :
    (3 < (laps.filter fun l => l.flagStatus == "green").length →
      (calculateTruePace laps true).truePace =
        listMeanQ
          (((laps.filter fun l => l.flagStatus == "green").map fun l => (l.lapTime : ℚ)).filter
            fun t =>
              t < listMeanQ ((laps.filter fun l => l.flagStatus == "green").map
                    fun l => (l.lapTime : ℚ)) * 1.5)) ∧
    ((laps.filter fun l => l.flagStatus == "green").length ≤ 3 →
      (calculateTruePace laps true).truePace =
        listMeanQ ((laps.filter fun l => l.flagStatus == "green").map fun l => (l.lapTime : ℚ))) :=
  ⟨fun hgt => truePace_gt3 laps hgt, fun hle => truePace_le3 laps hne hle⟩

/-- C1, witness: the amended theorem applied to the example history,
whose 3 green laps fall on the no-filter side. -/
theorem c1_true_pace_witness :
    (exampleLaps.filter fun l => l.flagStatus == "green") ≠ [] ∧
    ((exampleLaps.filter fun l => l.flagStatus == "green").length ≤ 3 →
      (calculateTruePace exampleLaps true).truePace =
        listMeanQ ((exampleLaps.filter fun l => l.flagStatus == "green").map
          fun l => (l.lapTime : ℚ))) :=
  ⟨by decide, fun hle => (c1_true_pace exampleLaps (by decide)).2 hle⟩

/-- An all-empty unified competitor record, the base for concrete
examples. -/
def baseUC : UnifiedCompetitor :=
  { transponder := "", carNumber := "", driverName := "", teamName := none,
    className := none, position := 0, classPosition := none, laps := 0,
    lastLapTime := 0, bestLapTime := .num 0, totalTime := 0, pitCount := none,
    inPit := none, flagStatus := none, lapHistory := none,
    sources := { redmist := false, racemonitor := false } }

/-- Provider-A-side record for the C2 counterexample: it carries a lap
history and a best lap but no pit data and no class position. -/
def c2RedmistRec : UnifiedCompetitor :=
  { baseUC with carNumber := "7", laps := 5, bestLapTime := .num 88000,
                lapHistory := some [mkLap 1 90000 "green"],
                sources := { redmist := true, racemonitor := false } }

/-- Provider-B-side record for the C2 counterexample: it carries pit
data and a class position but no lap history. -/
def c2RaceMonRec : UnifiedCompetitor :=
  { baseUC with carNumber := "7", pitCount := some 3, inPit := some true,
                classPosition := some 2,
                sources := { redmist := false, racemonitor := true } }

/-- C2, counterexample: merging drops non-null fields that are present
in exactly one input — provider B's pit count, in-pit flag and class
position are lost because those fields are copied from provider A
unconditionally, and provider A's lap history is lost because
`lapHistory` is copied from provider B unconditionally even when
provider B carries none. -/
theorem c2_counterexample :
    mergeCompetitorData (some c2RedmistRec) (some c2RaceMonRec) =
      some (mergeUC c2RedmistRec c2RaceMonRec) ∧
    c2RedmistRec.lapHistory = some [mkLap 1 90000 "green"] ∧
    c2RaceMonRec.lapHistory = none ∧
    (mergeUC c2RedmistRec c2RaceMonRec).lapHistory = none ∧
    c2RaceMonRec.pitCount = some 3 ∧
    c2RedmistRec.pitCount = none ∧
    (mergeUC c2RedmistRec c2RaceMonRec).pitCount = none ∧
    c2RaceMonRec.inPit = some true ∧
    (mergeUC c2RedmistRec c2RaceMonRec).inPit = none ∧
    c2RaceMonRec.classPosition = some 2 ∧
    (mergeUC c2RedmistRec c2RaceMonRec).classPosition = none := by
  decide

/-- C2 (amended): the merge preserves a non-null value present in only
one input for the prefer-non-null fields — transponder, car number,
driver name, team name, class name, position, laps, last lap, best lap,
total time — but `classPosition`, `pitCount`, `inPit` and `flagStatus`
are taken from provider A's record unconditionally and `lapHistory` from
provider B's record unconditionally (never interleaved), so a non-null
value of one of those five fields present only in the other record is
dropped. -/
theorem c2_merge_fields (a b : UnifiedCompetitor) :
    ((mergeUC a b).classPosition = a.classPosition ∧
     (mergeUC a b).pitCount = a.pitCount ∧
     (mergeUC a b).inPit = a.inPit ∧
     (mergeUC a b).flagStatus = a.flagStatus ∧
     (mergeUC a b).lapHistory = b.lapHistory) ∧
    (a.transponder = "" → (mergeUC a b).transponder = b.transponder) ∧
    (b.transponder = "" → (mergeUC a b).transponder = a.transponder) ∧
    (a.carNumber = "" → (mergeUC a b).carNumber = b.carNumber) ∧
    (b.carNumber = "" → (mergeUC a b).carNumber = a.carNumber) ∧
    (a.driverName = "" → (mergeUC a b).driverName = b.driverName) ∧
    (b.driverName = "" → (mergeUC a b).driverName = a.driverName) ∧
    (a.teamName = none → (mergeUC a b).teamName = b.teamName) ∧
    (b.teamName = none → a.teamName ≠ some "" → (mergeUC a b).teamName = a.teamName) ∧
    (a.className = none → (mergeUC a b).className = b.className) ∧
    (b.className = none → a.className ≠ some "" → (mergeUC a b).className = a.className) ∧
    (a.position = 0 → (mergeUC a b).position = b.position) ∧
    (b.position = 0 → (mergeUC a b).position = a.position) ∧
    (a.laps = 0 → (mergeUC a b).laps = b.laps) ∧
    (b.laps = 0 → (mergeUC a b).laps = a.laps) ∧
    (a.lastLapTime = 0 → (mergeUC a b).lastLapTime = b.lastLapTime) ∧
    (b.lastLapTime = 0 → (mergeUC a b).lastLapTime = a.lastLapTime) ∧
    (a.totalTime = 0 → (mergeUC a b).totalTime = b.totalTime) ∧
    (b.totalTime = 0 → (mergeUC a b).totalTime = a.totalTime) ∧
    (∀ m : Nat, m ≠ 0 → a.bestLapTime = .num 0 → b.bestLapTime = .num m →
      (mergeUC a b).bestLapTime = .num m) ∧
    (∀ m : Nat, m ≠ 0 → b.bestLapTime = .num 0 → a.bestLapTime = .num m →
      (mergeUC a b).bestLapTime = .num m) := by
  refine ⟨⟨rfl, rfl, rfl, rfl, rfl⟩, ?_, ?_, ?_, ?_, ?_, ?_, ?_, ?_, ?_, ?_,
    ?_, ?_, ?_, ?_, ?_, ?_, ?_, ?_, ?_, ?_⟩
  · intro h; simp [mergeUC, jsOrStr, h]
  · intro h; simp only [mergeUC, jsOrStr, h]; split <;> simp_all
  · intro h; simp [mergeUC, jsOrStr, h]
  · intro h; simp only [mergeUC, jsOrStr, h]; split <;> simp_all
  · intro h; simp [mergeUC, jsOrStr, h]
  · intro h; simp only [mergeUC, jsOrStr, h]; split <;> simp_all
  · intro h; simp [mergeUC, jsOrOptStr, h]
  · intro hb ha
    simp only [mergeUC, jsOrOptStr, hb]
    match hx : a.teamName with
    | none => rfl
    | some s =>
      rw [hx] at ha
      simp only
      rw [if_neg]
      intro hs
      exact ha (by rw [hs])
  · intro h; simp [mergeUC, jsOrOptStr, h]
  · intro hb ha
    simp only [mergeUC, jsOrOptStr, hb]
    match hx : a.className with
    | none => rfl
    | some s =>
      rw [hx] at ha
      simp only
      rw [if_neg]
      intro hs
      exact ha (by rw [hs])
  · intro h; simp [mergeUC, jsOrNat, h]
  · intro h; simp only [mergeUC, jsOrNat, h]; split <;> simp_all
  · intro h; simp [mergeUC, h]
  · intro h; simp [mergeUC, h]
  · intro h; simp [mergeUC, jsOrNat, h]
  · intro h; simp only [mergeUC, jsOrNat, h]; split <;> simp_all
  · intro h; simp only [mergeUC, jsOrNat, h]; split <;> simp_all
  · intro h; simp [mergeUC, jsOrNat, h]
  · intro m hm ha hb
    rcases m with _ | m
    · exact absurd rfl hm
    · simp [mergeUC, ha, hb, jsOrInf, jmin, jsOrZero]
  · intro m hm hb ha
    rcases m with _ | m
    · exact absurd rfl hm
    · simp [mergeUC, ha, hb, jsOrInf, jmin, jsOrZero]

/-- C2, witness: the amended per-field policy applied to the two
counterexample records. -/
theorem c2_merge_fields_witness :
    c2RedmistRec.teamName = none ∧
    (mergeUC c2RedmistRec c2RaceMonRec).teamName = c2RaceMonRec.teamName ∧
    c2RaceMonRec.position = 0 ∧
    (mergeUC c2RedmistRec c2RaceMonRec).position = c2RedmistRec.position ∧
    c2RaceMonRec.bestLapTime = JNum.num 0 ∧
    c2RedmistRec.bestLapTime = JNum.num 88000 ∧
    (mergeUC c2RedmistRec c2RaceMonRec).bestLapTime = JNum.num 88000 := by
  obtain ⟨-, -, -, -, -, -, -, ht1, -, -, -, -, hp2, -, -, -, -, -, -, -, hb2⟩ :=
    c2_merge_fields c2RedmistRec c2RaceMonRec
  exact ⟨rfl, ht1 rfl, rfl, hp2 rfl, rfl, rfl, hb2 88000 (by decide) rfl rfl⟩

lemma jsOrStr_assoc (a b c : String) :
    jsOrStr (jsOrStr a b) c = jsOrStr a (jsOrStr b c) := by
  unfold jsOrStr
  by_cases ha : a = "" <;> by_cases hb : b = "" <;> simp [ha, hb]

lemma jsOrOptStr_assoc (a b c : Option String) :
    jsOrOptStr (jsOrOptStr a b) c = jsOrOptStr a (jsOrOptStr b c) := by
  rcases a with _ | s
  · rfl
  · by_cases hs : s = "" <;> simp [jsOrOptStr, hs]

lemma jsOrInf_succ (m : Nat) : jsOrInf (.num (m + 1)) = .num (m + 1) := rfl

lemma jsOrInf_zero : jsOrInf (.num 0) = .inf := rfl

lemma jsOrInf_inf : jsOrInf .inf = .inf := rfl

lemma jsOrZero_succ (m : Nat) : jsOrZero (.num (m + 1)) = .num (m + 1) := rfl

lemma jsOrZero_inf : jsOrZero .inf = .inf := rfl

lemma jmin_inf_left (y : JNum) : jmin .inf y = y := rfl

lemma jmin_num_inf (a : Nat) : jmin (.num a) .inf = .num a := rfl

lemma jmin_num_num (a b : Nat) : jmin (.num a) (.num b) = .num (min a b) := rfl

lemma bestMerge_assoc (x y z : JNum) :
    jsOrZero (jmin (jsOrInf (jsOrZero (jmin (jsOrInf x) (jsOrInf y)))) (jsOrInf z)) =
    jsOrZero (jmin (jsOrInf x) (jsOrInf (jsOrZero (jmin (jsOrInf y) (jsOrInf z))))) := by
  rcases x with ⟨_ | m⟩ | _ <;> rcases y with ⟨_ | n⟩ | _ <;> rcases z with ⟨_ | k⟩ | _ <;>
    simp [jsOrInf_zero, jsOrInf_succ, jsOrInf_inf, jsOrZero_succ, jsOrZero_inf,
      jmin_inf_left, jmin_num_inf, jmin_num_num, Nat.succ_min_succ, Nat.min_assoc]

lemma bestMerge_idem (x : JNum) (hx : x ≠ .num 0) :
    jsOrZero (jmin (jsOrInf x) (jsOrInf x)) = x := by
  rcases x with ⟨_ | m⟩ | _
  · exact absurd rfl hx
  · simp [jsOrInf_succ, jmin_num_num, jsOrZero_succ]
  · rfl

/-- C3: the arrival-order part of the claim holds — on laps (maximum),
best lap time (minimum through `|| Infinity`) and the four
prefer-non-null identity fields, `merge(merge(a,b),c)` and
`merge(a,merge(b,c))` agree for all records; and merging a record with
itself leaves those fields unchanged whenever its best lap time is
nonzero.  The idempotence half of the claim fails at a zero best lap
time: `Math.min(0 || Infinity, 0 || Infinity) || 0` evaluates to
`Infinity` because `Infinity` is truthy, so `merge(a,a)` rewrites a zero
best lap to `Infinity` — the trailing `|| 0` shows the code intended
`0` there. -/
theorem c3_merge_order_independence :
    (∀ a b c : UnifiedCompetitor,
      (mergeUC (mergeUC a b) c).laps = (mergeUC a (mergeUC b c)).laps ∧
      (mergeUC (mergeUC a b) c).bestLapTime = (mergeUC a (mergeUC b c)).bestLapTime ∧
      (mergeUC (mergeUC a b) c).carNumber = (mergeUC a (mergeUC b c)).carNumber ∧
      (mergeUC (mergeUC a b) c).driverName = (mergeUC a (mergeUC b c)).driverName ∧
      (mergeUC (mergeUC a b) c).teamName = (mergeUC a (mergeUC b c)).teamName ∧
      (mergeUC (mergeUC a b) c).className = (mergeUC a (mergeUC b c)).className) ∧
    (∀ a : UnifiedCompetitor, a.bestLapTime ≠ JNum.num 0 →
      (mergeUC a a).laps = a.laps ∧
      (mergeUC a a).bestLapTime = a.bestLapTime ∧
      (mergeUC a a).carNumber = a.carNumber ∧
      (mergeUC a a).driverName = a.driverName ∧
      (mergeUC a a).teamName = a.teamName ∧
      (mergeUC a a).className = a.className) ∧
    (baseUC.bestLapTime = JNum.num 0 ∧ (mergeUC baseUC baseUC).bestLapTime = JNum.inf) := by
  refine ⟨fun a b c => ⟨?_, ?_, ?_, ?_, ?_, ?_⟩, fun a ha => ⟨?_, ?_, ?_, ?_, ?_, ?_⟩,
    by decide⟩
  · simpa [mergeUC] using Nat.max_assoc a.laps b.laps c.laps
  · simpa [mergeUC] using bestMerge_assoc a.bestLapTime b.bestLapTime c.bestLapTime
  · simpa [mergeUC] using jsOrStr_assoc a.carNumber b.carNumber c.carNumber
  · simpa [mergeUC] using jsOrStr_assoc a.driverName b.driverName c.driverName
  · simpa [mergeUC] using jsOrOptStr_assoc a.teamName b.teamName c.teamName
  · simpa [mergeUC] using jsOrOptStr_assoc a.className b.className c.className
  · simp [mergeUC]
  · simpa [mergeUC] using bestMerge_idem a.bestLapTime ha
  · simp [mergeUC, jsOrStr]
  · simp [mergeUC, jsOrStr]
  · rcases hx : a.teamName with _ | s
    · simp [mergeUC, jsOrOptStr, hx]
    · by_cases hs : s = "" <;> simp [mergeUC, jsOrOptStr, hx, hs]
  · rcases hx : a.className with _ | s
    · simp [mergeUC, jsOrOptStr, hx]
    · by_cases hs : s = "" <;> simp [mergeUC, jsOrOptStr, hx, hs]

/-- C3, witness: order independence at three concrete records, and
idempotence at a record with a nonzero best lap. -/
theorem c3_witness :
    (mergeUC (mergeUC c2RedmistRec c2RaceMonRec) baseUC).laps =
      (mergeUC c2RedmistRec (mergeUC c2RaceMonRec baseUC)).laps ∧
    (mergeUC (mergeUC c2RedmistRec c2RaceMonRec) baseUC).bestLapTime =
      (mergeUC c2RedmistRec (mergeUC c2RaceMonRec baseUC)).bestLapTime ∧
    c2RedmistRec.bestLapTime ≠ JNum.num 0 ∧
    (mergeUC c2RedmistRec c2RedmistRec).bestLapTime = c2RedmistRec.bestLapTime := by
  obtain ⟨h1, h2, -⟩ := c3_merge_order_independence
  exact ⟨(h1 _ _ _).1, (h1 _ _ _).2.1, by decide, (h2 c2RedmistRec (by decide)).2.1⟩

/-- Record with a zero best lap for the C5 failing input. -/
def c5ZeroA : UnifiedCompetitor := { baseUC with carNumber := "11" }

/-- Second record with a zero best lap for the C5 failing input. -/
def c5ZeroB : UnifiedCompetitor := { baseUC with carNumber := "22" }

/-- Record with a nonzero best lap used by the C5 witness. -/
def c5NonZeroB : UnifiedCompetitor := { baseUC with bestLapTime := .num 90000 }

/-- C5: the claim's nonzero cases hold — the merged best lap is the
minimum of two nonzero best laps, and the nonzero one when exactly one
is nonzero — but in the both-zero case the code returns `Infinity`, not
the claimed `0`: `Math.min(0 || Infinity, 0 || Infinity)` is `Infinity`,
which is truthy, so the trailing `|| 0` never fires even though it was
written precisely for that case. -/
theorem c5_best_lap_merge :
    (∀ a b : UnifiedCompetitor, ∀ m n : Nat, m ≠ 0 → n ≠ 0 →
      a.bestLapTime = JNum.num m → b.bestLapTime = JNum.num n →
      (mergeUC a b).bestLapTime = JNum.num (min m n)) ∧
    (∀ a b : UnifiedCompetitor, ∀ n : Nat, n ≠ 0 →
      a.bestLapTime = JNum.num 0 → b.bestLapTime = JNum.num n →
      (mergeUC a b).bestLapTime = JNum.num n) ∧
    (∀ a b : UnifiedCompetitor, ∀ n : Nat, n ≠ 0 →
      a.bestLapTime = JNum.num n → b.bestLapTime = JNum.num 0 →
      (mergeUC a b).bestLapTime = JNum.num n) ∧
    (c5ZeroA.bestLapTime = JNum.num 0 ∧ c5ZeroB.bestLapTime = JNum.num 0 ∧
      (mergeUC c5ZeroA c5ZeroB).bestLapTime = JNum.inf ∧ JNum.inf ≠ JNum.num 0) := by
  refine ⟨?_, ?_, ?_, by decide⟩
  · intro a b m n hm hn ha hb
    rcases m with _ | m
    · exact absurd rfl hm
    rcases n with _ | n
    · exact absurd rfl hn
    simp [mergeUC, ha, hb, jsOrInf_succ, jmin_num_num, Nat.succ_min_succ, jsOrZero_succ]
  · intro a b n hn ha hb
    rcases n with _ | n
    · exact absurd rfl hn
    simp [mergeUC, ha, hb, jsOrInf_zero, jsOrInf_succ, jmin_inf_left, jsOrZero_succ]
  · intro a b n hn ha hb
    rcases n with _ | n
    · exact absurd rfl hn
    simp [mergeUC, ha, hb, jsOrInf_zero, jsOrInf_succ, jmin_num_inf, jsOrZero_succ]

/-- C5, witness: the nonzero-nonzero clause applied to two concrete
records. -/
theorem c5_witness :
    (88000 : Nat) ≠ 0 ∧ (90000 : Nat) ≠ 0 ∧
    c2RedmistRec.bestLapTime = JNum.num 88000 ∧
    c5NonZeroB.bestLapTime = JNum.num 90000 ∧
    (mergeUC c2RedmistRec c5NonZeroB).bestLapTime = JNum.num (min 88000 90000) := by
  obtain ⟨h1, -, -, -⟩ := c5_best_lap_merge
  exact ⟨by decide, by decide, rfl, rfl, h1 _ _ _ _ (by decide) (by decide) rfl rfl⟩

lemma insertSorted_perm {α : Type} (lt : α → α → Bool) (x : α) (l : List α) :
    (insertSorted lt x l).Perm (x :: l) := by
  induction l with
  | nil => exact List.Perm.refl _
  | cons y ys ih =>
    unfold insertSorted
    split
    · exact (ih.cons y).trans (List.Perm.swap x y ys)
    · exact List.Perm.refl _

lemma sortByJS_perm {α : Type} (lt : α → α → Bool) (l : List α) :
    (sortByJS lt l).Perm l := by
  induction l with
  | nil => exact List.Perm.refl _
  | cons x xs ih => exact (insertSorted_perm lt x (sortByJS lt xs)).trans (ih.cons x)

lemma wfCar_get (car : CarLapData) (hwf : wfCar car = true) (i : Nat)
    (h : i < car.laps.length) : (car.laps.get ⟨i, h⟩).l = some ((i : Int) + 1) := by
  unfold wfCar at hwf
  rw [List.all_eq_true] at hwf
  have hlen : i < car.laps.enum.length := by simpa [List.enum_length] using h
  have hm : (i, car.laps.get ⟨i, h⟩) ∈ car.laps.enum := by
    have hget : car.laps.enum.get ⟨i, hlen⟩ = (i, car.laps.get ⟨i, h⟩) := by
      simp [List.getElem_enum]
    rw [← hget]
    exact List.get_mem _ _ _
  simpa using hwf _ hm

lemma candidateFor_nil (lap : Nat) (car : CarLapData) (hlap : 1 ≤ lap)
    (hnil : car.laps = []) : candidateFor lap car = none := by
  unfold candidateFor
  dsimp only
  rw [hnil]
  rw [if_neg (by simp; omega)]
  simp

lemma candidateFor_direct (lap : Nat) (car : CarLapData) (hlap : 1 ≤ lap)
    (h : lap ≤ car.laps.length) :
    candidateFor lap car = some (foundEntry car (car.laps.get ⟨lap - 1, by omega⟩)) := by
  unfold candidateFor
  dsimp only
  rw [if_pos (by omega)]
  have hidx : jsIndex car.laps ((lap : Int) - 1) =
      some (car.laps.get ⟨lap - 1, by omega⟩) := by
    unfold jsIndex
    rw [if_neg (by omega)]
    have htn : ((lap : Int) - 1).toNat = lap - 1 := by omega
    rw [htn, List.get?_eq_get (show lap - 1 < car.laps.length by omega)]
  rw [hidx]

lemma candidateFor_carry (lap : Nat) (car : CarLapData) (hwf : wfCar car = true)
    (hne : car.laps ≠ []) (hlt : car.laps.length < lap) :
    candidateFor lap car = some (carriedEntry car (car.laps.getLast hne)) ∧
    (carriedEntry car (car.laps.getLast hne)).l = some ((car.laps.length : Int)) := by
  have hpos : 1 ≤ car.laps.length := List.length_pos.mpr hne
  have hfind : car.laps.find? (fun l => jsLapNum l == some (lap : Int)) = none := by
    rw [List.find?_eq_none]
    intro x hx
    obtain ⟨⟨i, hi⟩, rfl⟩ := List.mem_iff_get.mp hx
    have hl := wfCar_get car hwf i hi
    simp only [jsLapNum, hl, beq_iff_eq, Option.some.injEq]
    omega
  have hlastget : car.laps.getLast hne = car.laps.get ⟨car.laps.length - 1, by omega⟩ :=
    List.getLast_eq_get _ _
  have hl2 : (car.laps.getLast hne).l = some ((car.laps.length : Int)) := by
    rw [hlastget, wfCar_get car hwf (car.laps.length - 1) (by omega)]
    congr 1
    omega
  constructor
  · unfold candidateFor
    dsimp only
    rw [if_neg (by omega), hfind, List.getLast?_eq_getLast _ hne]
    simp [hlt]
  · simp [carriedEntry, jsLapNum, hl2]

lemma candidateFor_isSome (lap : Nat) (car : CarLapData) (hlap : 1 ≤ lap)
    (hne : car.laps ≠ []) : (candidateFor lap car).isSome = true := by
  by_cases h : lap ≤ car.laps.length
  · rw [candidateFor_direct lap car hlap h]
    rfl
  · unfold candidateFor
    dsimp only
    rw [if_neg (by omega)]
    cases hf : car.laps.find? (fun l => jsLapNum l == some (lap : Int)) with
    | some e => simp
    | none => simp [List.getLast?_eq_getLast _ hne, if_pos (by omega : car.laps.length < lap)]

lemma candidateFor_n (lap : Nat) (car : CarLapData) (e : CarPos)
    (h : candidateFor lap car = some e) : e.n = some car.carNumber := by
  unfold candidateFor at h
  dsimp only at h
  repeat' split at h
  all_goals first
    | (injection h with h2; rw [← h2]; rfl)
    | (exact absurd h (by simp))

lemma candidatesAtLap_map_n (lap : Nat) (lapData : List CarLapData) (hlap : 1 ≤ lap) :
    (candidatesAtLap lap lapData).map (fun e => e.n) =
      (lapData.filter fun car => !car.laps.isEmpty).map fun car => some car.carNumber := by
  induction lapData with
  | nil => rfl
  | cons car rest ih =>
    unfold candidatesAtLap at ih ⊢
    by_cases hne : car.laps = []
    · have h1 : candidateFor lap car = none := candidateFor_nil lap car hlap hne
      simp [List.filterMap_cons, List.filter_cons, h1, hne, ih]
    · have h1 : (candidateFor lap car).isSome = true := candidateFor_isSome lap car hlap hne
      obtain ⟨e, he⟩ := Option.isSome_iff_exists.mp h1
      have h2 := candidateFor_n lap car e he
      simp [List.filterMap_cons, List.filter_cons, he, hne, h2, ih,
        List.isEmpty_iff]

lemma reassign_map_n (xs : List CarPos) :
    (reassignPositions xs).map (fun e => e.n) = xs.map fun e => e.n := by
  unfold reassignPositions
  rw [List.map_map]
  rw [show ((fun e : CarPos => e.n) ∘ fun pr : Nat × CarPos =>
      ({ pr.2 with p := some ((pr.1 : Int) + 1), ovp := some ((pr.1 : Int) + 1) } : CarPos)) =
      ((fun e : CarPos => e.n) ∘ Prod.snd) from rfl]
  rw [← List.map_map, List.enum_map_snd]

/-- C4: coverage of `updatePositionsAtLap` for a requested lap `≥ 1`, on
well-formed histories (each record carries its 1-based lap number, the
array-position convention of the data model).  A car with no history
contributes nothing; a car whose history reaches the requested lap is
shown with the record found by direct index lookup at array position
`lap − 1`; a car with a shorter non-empty history is carried forward
from its last completed record, re-stamped with its true last-completed
lap number; and the final snapshot holds exactly one entry per car with
a non-empty history. -/
theorem c4_replay_coverage (lap : Nat) (lapData : List CarLapData)
    (hwf : wfData lapData = true) (hlap : 1 ≤ lap) :
    (∀ car ∈ lapData, car.laps = [] → candidateFor lap car = none) ∧
    (∀ car ∈ lapData, ∀ h : lap ≤ car.laps.length,
      candidateFor lap car = some (foundEntry car (car.laps.get ⟨lap - 1, by omega⟩))) ∧
    (∀ car ∈ lapData, ∀ h : car.laps ≠ [], car.laps.length < lap →
      candidateFor lap car = some (carriedEntry car (car.laps.getLast h)) ∧
      (carriedEntry car (car.laps.getLast h)).l = some ((car.laps.length : Int))) ∧
    ((updatePositionsAtLap lap lapData).map (fun e => e.n)).Perm
      ((lapData.filter fun car => !car.laps.isEmpty).map fun car => some car.carNumber) := by
  have hwf1 : ∀ car ∈ lapData, wfCar car = true := List.all_eq_true.mp hwf
  refine ⟨fun car _ h => candidateFor_nil lap car hlap h,
    fun car _ h => candidateFor_direct lap car hlap h,
    fun car hmem h hlt => candidateFor_carry lap car (hwf1 car hmem) h hlt, ?_⟩
  have h1 : (updatePositionsAtLap lap lapData).map (fun e => e.n) =
      (sortByJS carsLT (candidatesAtLap lap lapData)).map fun e => e.n := by
    unfold updatePositionsAtLap
    exact reassign_map_n _
  rw [h1, ← candidatesAtLap_map_n lap lapData hlap]
  exact (sortByJS_perm carsLT (candidatesAtLap lap lapData)).map fun e => e.n

/-- Lap-record builder for the replay examples: the record for lap `i`
with no recorded position fields. -/
def mkRec (i : Nat) : CarPos :=
  ⟨none, none, some (i : Int), none, none, none, none, none, some "1:30.000"⟩

/-- Example car A with 5 completed laps. -/
def exCarA : CarLapData := ⟨"A", none, none, [mkRec 1, mkRec 2, mkRec 3, mkRec 4, mkRec 5]⟩

/-- Example car B with 3 completed laps. -/
def exCarB : CarLapData := ⟨"B", none, none, [mkRec 1, mkRec 2, mkRec 3]⟩

/-- Example car C with no history. -/
def exCarC : CarLapData := ⟨"C", none, none, []⟩

/-- The three-car session of the replay-totality example. -/
def exReplayData : List CarLapData := [exCarA, exCarB, exCarC]

/-- C4, witness: the spec's replay-totality example — cars with 5, 3 and
0 laps at requested lap 4: A found by direct index lookup at position 3,
B carried forward from its lap-3 record and stamped with lap 3, C
omitted, and the snapshot contains exactly A and B. -/
theorem c4_replay_coverage_witness :
    wfData exReplayData = true ∧ 1 ≤ 4 ∧
    candidateFor 4 exCarC = none ∧
    candidateFor 4 exCarA = some (foundEntry exCarA (exCarA.laps.get ⟨3, by decide⟩)) ∧
    (candidateFor 4 exCarB = some (carriedEntry exCarB (exCarB.laps.getLast (by decide))) ∧
      (carriedEntry exCarB (exCarB.laps.getLast (by decide))).l =
        some ((exCarB.laps.length : Int))) ∧
    ((updatePositionsAtLap 4 exReplayData).map (fun e => e.n)).Perm
      ((exReplayData.filter fun car => !car.laps.isEmpty).map fun car => some car.carNumber) := by
  obtain ⟨h1, h2, h3, h4⟩ := c4_replay_coverage 4 exReplayData (by decide) (by decide)
  exact ⟨by decide, by decide,
    h1 exCarC (by decide) rfl,
    h2 exCarA (by decide) (by decide),
    h3 exCarB (by decide) (by decide) (by decide),
    h4⟩

lemma reassign_get (xs : List CarPos) (i : Nat) (h : i < (reassignPositions xs).length) :
    ((reassignPositions xs).get ⟨i, h⟩).p = some ((i : Int) + 1) ∧
    ((reassignPositions xs).get ⟨i, h⟩).ovp = some ((i : Int) + 1) := by
  have hlen : i < xs.length := by
    simpa [reassignPositions, List.enum_length] using h
  constructor <;>
    simp [reassignPositions, List.get_eq_getElem, List.getElem_map, List.getElem_enum]

/-- A car on lap 10 whose found record carries recorded position 3. -/
def posRec (lapN pos : Nat) : CarPos :=
  ⟨none, none, some (lapN : Int), none, none, some (pos : Int), none, none, some "1:30.000"⟩

/-- Filler record for histories that only need to be long enough for the
direct index lookup. -/
def dummyRec : CarPos := ⟨none, none, some 1, none, none, none, none, none, none⟩

/-- Ten-lap car whose lap-10 record reports position 5. -/
def c6CarP5 : CarLapData := ⟨"P5", none, none, List.replicate 9 dummyRec ++ [posRec 10 5]⟩

/-- Ten-lap car whose lap-10 record reports position 3. -/
def c6CarP3 : CarLapData := ⟨"P3", none, none, List.replicate 9 dummyRec ++ [posRec 10 3]⟩

/-- Ten-lap record with no recorded position and the given lap time. -/
def timeRec (t : String) : CarPos := ⟨none, none, some 10, none, none, none, none, none, some t⟩

/-- Ten-lap car with sentinel position and a 91 s lap. -/
def c6CarSlow : CarLapData := ⟨"S", none, none, List.replicate 9 dummyRec ++ [timeRec "1:31.000"]⟩

/-- Ten-lap car with sentinel position and a 90 s lap. -/
def c6CarFast : CarLapData := ⟨"F", none, none, List.replicate 9 dummyRec ++ [timeRec "1:30.000"]⟩

/-- C6: the replay ordering — more laps completed sorts strictly
earlier; on equal laps the recorded position (the `ovp ?? p ?? llo ??
999` key) decides, ascending, when both keys are distinct from the 999
sentinel; when both cars report the sentinel the comparator falls back
to lap time ascending; after sorting, display positions `p` and `ovp`
are reassigned sequentially from 1, discarding the recorded position;
and on the spec's examples, positions 3 and 5 on the same lap sort as
(3, 5) while two sentinel cars sort faster-lap first. -/
theorem c6_ordering :
    (∀ a b : CarPos, ∀ la lb : Int, jsLapNum a = some la → jsLapNum b = some lb →
      lb < la → compareCars a b = Ordering.lt) ∧
    (∀ a b : CarPos, ∀ la : Int, jsLapNum a = some la → jsLapNum b = some la →
      keyPos a ≠ 999 → keyPos b ≠ 999 → keyPos a < keyPos b →
      compareCars a b = Ordering.lt) ∧
    (∀ a b : CarPos, ∀ la : Int, jsLapNum a = some la → jsLapNum b = some la →
      keyPos a = 999 → keyPos b = 999 →
      compareCars a b = numCmpd (subOpt (parseLapTimeToMs a.ltm) (parseLapTimeToMs b.ltm))) ∧
    (∀ lap : Nat, ∀ lapData : List CarLapData, ∀ i : Nat,
      ∀ h : i < (updatePositionsAtLap lap lapData).length,
      ((updatePositionsAtLap lap lapData).get ⟨i, h⟩).p = some ((i : Int) + 1) ∧
      ((updatePositionsAtLap lap lapData).get ⟨i, h⟩).ovp = some ((i : Int) + 1)) ∧
    ((updatePositionsAtLap 10 [c6CarP5, c6CarP3]).map (fun e => e.n) =
      [some "P3", some "P5"]) ∧
    ((updatePositionsAtLap 10 [c6CarSlow, c6CarFast]).map (fun e => e.n) =
      [some "F", some "S"]) := by
  refine ⟨?_, ?_, ?_, fun lap lapData i h => reassign_get _ i h, by decide, by decide⟩
  · intro a b la lb h1 h2 hlt
    unfold compareCars
    dsimp only
    rw [h1, h2]
    rw [if_pos (by simp [jsStrictNeq]; omega)]
    simp only [subOpt, numCmpd]
    rw [if_pos (by omega)]
  · intro a b la h1 h2 hpa hpb hlt
    unfold compareCars
    dsimp only
    rw [h1, h2]
    rw [if_neg (by simp [jsStrictNeq])]
    rw [if_pos ⟨by omega, hpa, hpb⟩]
    simp only [numCmpd]
    rw [if_pos (by omega)]
  · intro a b la h1 h2 hpa hpb
    unfold compareCars
    dsimp only
    rw [h1, h2]
    rw [if_neg (by simp [jsStrictNeq])]
    rw [if_neg (by simp [hpa, hpb])]

/-- C6, witness: the comparator clauses and the reassignment applied to
concrete ten-lap cars. -/
theorem c6_ordering_witness :
    jsLapNum (posRec 10 3) = some 10 ∧ jsLapNum (posRec 10 5) = some 10 ∧
    keyPos (posRec 10 3) ≠ 999 ∧ keyPos (posRec 10 5) ≠ 999 ∧
    keyPos (posRec 10 3) < keyPos (posRec 10 5) ∧
    compareCars (posRec 10 3) (posRec 10 5) = Ordering.lt ∧
    (0 : Nat) < (updatePositionsAtLap 10 [c6CarP5, c6CarP3]).length ∧
    ((updatePositionsAtLap 10 [c6CarP5, c6CarP3]).get ⟨0, by decide⟩).p =
      some ((0 : Int) + 1) := by
  obtain ⟨-, h2, -, h4, -, -⟩ := c6_ordering
  exact ⟨by decide, by decide, by decide, by decide, by decide,
    h2 _ _ 10 (by decide) (by decide) (by decide) (by decide) (by decide),
    by decide,
    (h4 10 [c6CarP5, c6CarP3] 0 (by decide)).1⟩

lemma runHub_eq (h : List SubAction) :
    runHub h = ⟨activeEventAfter h, activeCarAfter h⟩ := by
  suffices H : ∀ s : HubState, h.foldl hubStep s =
      ⟨h.foldl
        (fun acc a =>
          match a with
          | .subEvent e => some e
          | .unsubEvent e => if acc = some e then none else acc
          | _ => acc) s.subscribedEventId,
       h.foldl
        (fun acc a =>
          match a with
          | .subInCar _ car => some car
          | .unsubInCar _ car => if acc = some car then none else acc
          | _ => acc) s.subscribedCar⟩ by
    simpa [runHub, activeEventAfter, activeCarAfter, initHub] using H initHub
  induction h with
  | nil => intro s; rfl
  | cons a rest ih =>
    intro s
    cases a with
    | subEvent e => simpa [List.foldl_cons, hubStep] using ih _
    | unsubEvent e =>
      by_cases he : s.subscribedEventId = some e <;>
        simpa [List.foldl_cons, hubStep, he] using ih _
    | subCtrl e => simpa [List.foldl_cons, hubStep] using ih _
    | unsubCtrl e => simpa [List.foldl_cons, hubStep] using ih _
    | subInCar e car => simpa [List.foldl_cons, hubStep] using ih _
    | unsubInCar e car =>
      by_cases hc : s.subscribedCar = some car <;>
        simpa [List.foldl_cons, hubStep, hc] using ih _

/-- C7, counterexample: subscribe to event 5, subscribe to its control
log, then explicitly unsubscribe from the control log; after a
disconnect/reconnect the manager still re-issues the control-log
subscribe call, because control-log subscriptions are not tracked — a
subscribe call is re-issued for a subscription that had been explicitly
unsubscribed before the disconnect, refuting the claim. -/
theorem c7_counterexample :
    SubAction.subCtrl 5 ∈
      resubscribeCalls
        (runHub [SubAction.subEvent 5, SubAction.subCtrl 5, SubAction.unsubCtrl 5]) ∧
    activeCtrlAfter [SubAction.subEvent 5, SubAction.subCtrl 5, SubAction.unsubCtrl 5] 5 =
      false := by
  decide

/-- C7 (amended): after any call history, the bookkeeping state is
exactly the active event subscription and active in-car subscription,
and the calls re-issued on reconnection are exactly: the event subscribe
and the control-log subscribe for the active event when its id is
truthy (nonzero) — the control-log subscribe is issued whether or not an
explicit control-log unsubscribe happened, since that state is not
tracked — plus the in-car subscribe when additionally an in-car
subscription for a truthy (nonempty) car is active. -/
theorem c7_resubscription (h : List SubAction) :
    runHub h = ⟨activeEventAfter h, activeCarAfter h⟩ ∧
    (∀ e : Int, SubAction.subEvent e ∈ resubscribeCalls (runHub h) ↔
      (activeEventAfter h = some e ∧ e ≠ 0)) ∧
    (∀ e : Int, SubAction.subCtrl e ∈ resubscribeCalls (runHub h) ↔
      (activeEventAfter h = some e ∧ e ≠ 0)) ∧
    (∀ e : Int, ∀ car : String, SubAction.subInCar e car ∈ resubscribeCalls (runHub h) ↔
      (activeEventAfter h = some e ∧ e ≠ 0 ∧ activeCarAfter h = some car ∧ car ≠ "")) := by
  have hr := runHub_eq h
  refine ⟨hr, ?_, ?_, ?_⟩ <;> rw [hr] <;> intro e
  · cases hE : activeEventAfter h with
    | none => simp [resubscribeCalls]
    | some e0 =>
      cases hC : activeCarAfter h with
      | none => by_cases h0 : e0 = 0 <;> simp [resubscribeCalls, h0] <;> aesop
      | some car0 =>
        by_cases h0 : e0 = 0 <;> by_cases hc0 : car0 = "" <;>
          simp [resubscribeCalls, h0, hc0] <;> aesop
  · cases hE : activeEventAfter h with
    | none => simp [resubscribeCalls]
    | some e0 =>
      cases hC : activeCarAfter h with
      | none => by_cases h0 : e0 = 0 <;> simp [resubscribeCalls, h0] <;> aesop
      | some car0 =>
        by_cases h0 : e0 = 0 <;> by_cases hc0 : car0 = "" <;>
          simp [resubscribeCalls, h0, hc0] <;> aesop
  · intro car
    cases hE : activeEventAfter h with
    | none => simp [resubscribeCalls]
    | some e0 =>
      cases hC : activeCarAfter h with
      | none => by_cases h0 : e0 = 0 <;> simp [resubscribeCalls, h0]
      | some car0 =>
        by_cases h0 : e0 = 0 <;> by_cases hc0 : car0 = "" <;>
          simp [resubscribeCalls, h0, hc0] <;> aesop

/-- C7, witness: the amended characterization applied to a concrete
history holding an event and an in-car subscription. -/
theorem c7_resubscription_witness :
    (SubAction.subEvent 7 ∈
        resubscribeCalls (runHub [SubAction.subEvent 7, SubAction.subInCar 7 "42"]) ↔
      (activeEventAfter [SubAction.subEvent 7, SubAction.subInCar 7 "42"] = some 7 ∧
        (7 : Int) ≠ 0)) ∧
    (SubAction.subInCar 7 "42" ∈
        resubscribeCalls (runHub [SubAction.subEvent 7, SubAction.subInCar 7 "42"]) ↔
      (activeEventAfter [SubAction.subEvent 7, SubAction.subInCar 7 "42"] = some 7 ∧
        (7 : Int) ≠ 0 ∧
        activeCarAfter [SubAction.subEvent 7, SubAction.subInCar 7 "42"] = some "42" ∧
        "42" ≠ "")) :=
  ⟨(c7_resubscription [SubAction.subEvent 7, SubAction.subInCar 7 "42"]).2.1 7,
   (c7_resubscription [SubAction.subEvent 7, SubAction.subInCar 7 "42"]).2.2.2 7 "42"⟩

lemma decB64_encB64 : ∀ k : Nat, k < 64 → decB64 (encB64 k) = some k := by decide

lemma encB64_ne_pad : ∀ k : Nat, k < 64 → encB64 k ≠ '=' := by decide

/-- Base64 decoding inverts base64 encoding on byte lists. -/
theorem b64_roundtrip (bs : List Nat) (hb : ∀ x ∈ bs, x < 256) :
    b64DecodeChars (b64EncodeChars bs) = some bs := by
  induction bs using b64EncodeChars.induct with
  | case1 => rfl
  | case2 a =>
    have ha : a < 256 := hb a (by simp)
    simp only [b64EncodeChars, b64DecodeChars]
    rw [decB64_encB64 (a / 4) (by omega), decB64_encB64 (a % 4 * 16) (by omega)]
    simp
    omega
  | case3 a b =>
    have ha : a < 256 := hb a (by simp)
    have hbb : b < 256 := hb b (by simp)
    simp only [b64EncodeChars, b64DecodeChars]
    rw [decB64_encB64 (a / 4) (by omega), decB64_encB64 (a % 4 * 16 + b / 16) (by omega)]
    simp only [Option.some_bind]
    rw [if_neg (by rintro ⟨h3, -⟩; exact encB64_ne_pad (b % 16 * 4) (by omega) h3)]
    rw [decB64_encB64 (b % 16 * 4) (by omega)]
    have h1 : a / 4 * 4 + (a % 4 * 16 + b / 16) / 16 = a := by omega
    simp [h1]
    omega
  | case4 a b c rest ih =>
    have ha : a < 256 := hb a (by simp)
    have hbb : b < 256 := hb b (by simp)
    have hc : c < 256 := hb c (by simp)
    have hrest : ∀ x ∈ rest, x < 256 := fun x hx => hb x (by simp [hx])
    simp only [b64EncodeChars, b64DecodeChars]
    rw [decB64_encB64 (a / 4) (by omega), decB64_encB64 (a % 4 * 16 + b / 16) (by omega)]
    simp only [Option.some_bind]
    rw [if_neg (by rintro ⟨h3, -⟩; exact encB64_ne_pad (b % 16 * 4 + c / 64) (by omega) h3)]
    rw [decB64_encB64 (b % 16 * 4 + c / 64) (by omega)]
    simp only [Option.some_bind]
    rw [if_neg (by rintro ⟨h4, -⟩; exact encB64_ne_pad (c % 64) (by omega) h4)]
    rw [decB64_encB64 (c % 64) (by omega), ih hrest]
    have h1 : a / 4 * 4 + (a % 4 * 16 + b / 16) / 16 = a := by omega
    have h2 : (a % 4 * 16 + b / 16) % 16 * 16 + (b % 16 * 4 + c / 64) / 4 = b := by omega
    have h3 : (b % 16 * 4 + c / 64) % 4 * 64 + c % 64 = c := by omega
    simp [h1, h2, h3]

/-- A base64 encoding of a byte stream that starts with the gzip magic
bytes `1f 8b 08` starts with the characters `H4sI` — the prefix
`decompressMessage` detects. -/
theorem b64_magic (bs : List Nat) (h : bs.take 3 = [31, 139, 8]) :
    hasMagic (b64EncodeChars bs) = true := by
  match bs, h with
  | 31 :: 139 :: 8 :: rest, _ => rfl

/-- C8: the detection-and-decode path of `decompressMessage` is correct
for any gzip-family codec: if the compressor emits the gzip magic bytes
`1f 8b 08`, emits bytes, and is inverted by the decompressor, then
encoding a JSON value by print–deflate–base64 and decoding through
`decompressMessage` reproduces the value exactly; and a message that
does not start with `H4sI` is JSON-parsed directly, with no base64
decoding and no decompression attempted. -/
theorem c8_envelope_codec {α : Type}
    (inflate : List Nat → Option (List Char)) (deflate : List Char → List Nat)
    (parse : List Char → Option α) (printJ : α → List Char) (j : α)
    (h1 : inflate (deflate (printJ j)) = some (printJ j))
    (h2 : (deflate (printJ j)).take 3 = [31, 139, 8])
    (h3 : ∀ x ∈ deflate (printJ j), x < 256)
    (hp : parse (printJ j) = some j) :
    decompressMessage inflate parse (b64EncodeChars (deflate (printJ j))) = some j ∧
    (∀ m : List Char, hasMagic m = false → decompressMessage inflate parse m = parse m) := by
  constructor
  · unfold decompressMessage
    rw [if_pos (b64_magic _ h2), b64_roundtrip _ h3]
    simp [h1, hp]
  · intro m hm
    unfold decompressMessage
    rw [if_neg (by simp [hm])]

/-- Concrete gzip-family stand-in for the C8 witness: prepend the gzip
magic bytes and the code points of the text. -/
def c8Deflate (s : List Char) : List Nat := 31 :: 139 :: 8 :: s.map Char.toNat

/-- Inverse of `c8Deflate`. -/
def c8Inflate (bs : List Nat) : Option (List Char) :=
  some ((bs.drop 3).map fun n => Char.ofNat n)

/-- Concrete parser for the C8 witness. -/
def c8Parse (s : List Char) : Option Nat := if s = ['4', '2'] then some 42 else none

/-- Concrete printer for the C8 witness. -/
def c8Print (n : Nat) : List Char := if n = 42 then ['4', '2'] else []

/-- C8, witness: the codec theorem applied to the concrete instance. -/
theorem c8_envelope_codec_witness :
    c8Inflate (c8Deflate (c8Print 42)) = some (c8Print 42) ∧
    (c8Deflate (c8Print 42)).take 3 = [31, 139, 8] ∧
    (∀ x ∈ c8Deflate (c8Print 42), x < 256) ∧
    c8Parse (c8Print 42) = some 42 ∧
    decompressMessage c8Inflate c8Parse (b64EncodeChars (c8Deflate (c8Print 42))) = some 42 ∧
    decompressMessage c8Inflate c8Parse ['p', 'l', 'a', 'i', 'n'] =
      c8Parse ['p', 'l', 'a', 'i', 'n'] := by
  refine ⟨by decide, by decide, by decide, by decide, ?_, ?_⟩
  · exact (c8_envelope_codec c8Inflate c8Deflate c8Parse c8Print 42
      (by decide) (by decide) (by decide) (by decide)).1
  · exact (c8_envelope_codec c8Inflate c8Deflate c8Parse c8Print 42
      (by decide) (by decide) (by decide) (by decide)).2 ['p', 'l', 'a', 'i', 'n'] (by decide)

/-- Concrete credentials for the token-manager examples. -/
def c9Config : AuthConfig := ⟨"client-id", "client-secret"⟩

/-- Configured token manager with no cached token and no in-flight
refresh. -/
def c9EmptyState : TMState := ⟨none, none, none, some c9Config⟩

/-- An exchange that returns a token valid for only 10 seconds. -/
def c9ShortExchange : AuthConfig → ExchangeResult := fun _ => .ok "tok" 10

/-- Configured token manager with a cached token valid until 100000. -/
def c9ValidState : TMState := ⟨some "cached", some 100000, none, some c9Config⟩

/-- Unconfigured token manager. -/
def c9NoCfgState : TMState := ⟨none, none, none, none⟩

/-- An exchange that fails with an HTTP 500. -/
def c9FailExchange : AuthConfig → ExchangeResult := fun _ => .httpError 500 "boom"

/-- C9, counterexample: with no cached token, `getToken` at time 0
performs the exchange and hands the fresh token straight to the caller
even though the provider granted it only 10 seconds of life — the token
expires at 10000, within the 30-second margin of now, refuting "a token
is never returned to a caller if it expires within 30 seconds of
now". -/
theorem c9_counterexample :
    (getToken c9EmptyState 0 c9ShortExchange).1 = Except.ok "tok" ∧
    (getToken c9EmptyState 0 c9ShortExchange).2.1.tokenExpiry = some 10000 ∧
    (10000 : Int) ≤ 0 + 30000 := by
  decide

/-- C9 (amended): the cached path is taken iff a nonempty cached token
exists with a nonzero expiry more than the 30 s margin after now — so a
*cached* token is never returned when it expires within the margin, and
then no exchange happens (the result does not depend on the exchange
function and the state is untouched); an in-flight refresh is awaited as
is; otherwise `getToken` performs the exchange and fails exactly when no
credentials are configured or the exchange call fails, while a
successful exchange returns the fresh token regardless of its
lifetime. -/
theorem c9_get_token (s : TMState) (now : Int) (exchange : AuthConfig → ExchangeResult) :
    (tokenIsValid s now = true ↔
      ∃ t e, s.accessToken = some t ∧ t ≠ "" ∧ s.tokenExpiry = some e ∧ e ≠ 0 ∧
        now + TOKEN_REFRESH_MARGIN < e) ∧
    (tokenIsValid s now = true →
      ∀ exchange2 : AuthConfig → ExchangeResult,
        getToken s now exchange = (Except.ok (s.accessToken.getD ""), s, []) ∧
        getToken s now exchange = getToken s now exchange2) ∧
    (∀ r, s.refreshInFlight = some r → tokenIsValid s now = false →
      getToken s now exchange = (r, s, [])) ∧
    (s.refreshInFlight = none → tokenIsValid s now = false → s.config = none →
      getToken s now exchange =
        (Except.error "Token manager not configured. Call configure() first.",
         { s with refreshInFlight := none }, [])) ∧
    (s.refreshInFlight = none → tokenIsValid s now = false →
      ∀ cfg, s.config = some cfg →
        (∀ status body, exchange cfg = .httpError status body →
          (getToken s now exchange).1 =
            Except.error ("Authentication failed: " ++ toString status ++ " " ++ body)) ∧
        (∀ tok expiresIn, exchange cfg = .ok tok expiresIn →
          (getToken s now exchange).1 = Except.ok tok ∧
          (getToken s now exchange).2.1.accessToken = some tok ∧
          (getToken s now exchange).2.1.tokenExpiry = some (now + expiresIn * 1000))) := by
  refine ⟨?_, ?_, ?_, ?_, ?_⟩
  · unfold tokenIsValid
    cases hA : s.accessToken with
    | none => simp
    | some t =>
      cases hE : s.tokenExpiry with
      | none => simp
      | some e =>
        simp only [Bool.and_eq_true, bne_iff_ne, ne_eq, decide_eq_true_eq,
          Option.some.injEq, TOKEN_REFRESH_MARGIN]
        constructor
        · rintro ⟨⟨ht, he⟩, hlt⟩
          exact ⟨t, e, rfl, ht, rfl, he, by omega⟩
        · rintro ⟨t2, e2, rfl, ht, rfl, he, hlt⟩
          exact ⟨⟨ht, he⟩, by omega⟩
  · intro hv exchange2
    unfold getToken
    rw [if_pos hv, if_pos hv]
    exact ⟨rfl, rfl⟩
  · intro r hr hv
    unfold getToken
    rw [if_neg (by simp [hv])]
    simp [hr]
  · intro hrf hv hcfg
    unfold getToken refreshToken
    rw [if_neg (by simp [hv])]
    simp [hrf, hcfg]
  · intro hrf hv cfg hcfg
    constructor
    · intro status body hex
      unfold getToken refreshToken
      rw [if_neg (by simp [hv])]
      simp [hrf, hcfg, hex]
    · intro tok expiresIn hex
      unfold getToken refreshToken
      rw [if_neg (by simp [hv])]
      simp [hrf, hcfg, hex]

/-- C9, witness: the amended contract applied to a valid cached state
and to an unconfigured state. -/
theorem c9_get_token_witness :
    tokenIsValid c9ValidState 0 = true ∧
    getToken c9ValidState 0 c9ShortExchange =
      (Except.ok (c9ValidState.accessToken.getD ""), c9ValidState, []) ∧
    c9NoCfgState.refreshInFlight = none ∧
    tokenIsValid c9NoCfgState 0 = false ∧
    c9NoCfgState.config = none ∧
    getToken c9NoCfgState 0 c9ShortExchange =
      (Except.error "Token manager not configured. Call configure() first.",
       { c9NoCfgState with refreshInFlight := none }, []) := by
  refine ⟨by decide, ?_, by decide, by decide, by decide, ?_⟩
  · exact ((c9_get_token c9ValidState 0 c9ShortExchange).2.1 (by decide) c9ShortExchange).1
  · exact (c9_get_token c9NoCfgState 0 c9ShortExchange).2.2.2.1 rfl (by decide) rfl

/-- C10: when a refresh actually runs and the exchange fails (or no
credentials are configured), `getToken` leaves the cached token and
expiry unchanged, notifies no listener, and clears the in-flight marker;
a subsequent `getToken` with a succeeding exchange therefore performs a
fresh exchange and returns its token rather than replaying the failed
refresh. -/
theorem c10_failure_keeps_state (s : TMState) (now : Int)
    (exchange : AuthConfig → ExchangeResult)
    (hrf : s.refreshInFlight = none) (hv : tokenIsValid s now = false) :
    (s.config = none →
      (getToken s now exchange).2.1.accessToken = s.accessToken ∧
      (getToken s now exchange).2.1.tokenExpiry = s.tokenExpiry ∧
      (getToken s now exchange).2.1.refreshInFlight = none ∧
      (getToken s now exchange).2.2 = []) ∧
    (∀ cfg status body, s.config = some cfg → exchange cfg = .httpError status body →
      (getToken s now exchange).2.1.accessToken = s.accessToken ∧
      (getToken s now exchange).2.1.tokenExpiry = s.tokenExpiry ∧
      (getToken s now exchange).2.1.refreshInFlight = none ∧
      (getToken s now exchange).2.2 = [] ∧
      (∀ exchange2 : AuthConfig → ExchangeResult, ∀ tok expiresIn,
        exchange2 cfg = .ok tok expiresIn →
        (getToken ((getToken s now exchange).2.1) now exchange2).1 = Except.ok tok)) := by
  constructor
  · intro hcfg
    unfold getToken refreshToken
    rw [if_neg (by simp [hv])]
    simp [hrf, hcfg]
  · intro cfg status body hcfg hex
    have hout : (getToken s now exchange).2.1 = { s with refreshInFlight := none } := by
      unfold getToken refreshToken
      rw [if_neg (by simp [hv])]
      simp [hrf, hcfg, hex]
    refine ⟨by rw [hout], by rw [hout], by rw [hout], ?_, ?_⟩
    · unfold getToken refreshToken
      rw [if_neg (by simp [hv])]
      simp [hrf, hcfg, hex]
    · intro exchange2 tok expiresIn hex2
      rw [hout]
      have hv2 : tokenIsValid { s with refreshInFlight := none } now = false := by
        unfold tokenIsValid at hv ⊢
        exact hv
      unfold getToken refreshToken
      rw [if_neg (by simp [hv2])]
      simp [hcfg, hex2]

/-- C10, witness: a failing exchange on a configured manager leaves the
state unchanged, and the next call with a succeeding exchange returns
the fresh token. -/
theorem c10_failure_keeps_state_witness :
    c9EmptyState.refreshInFlight = none ∧
    tokenIsValid c9EmptyState 0 = false ∧
    c9EmptyState.config = some c9Config ∧
    c9FailExchange c9Config = ExchangeResult.httpError 500 "boom" ∧
    (getToken c9EmptyState 0 c9FailExchange).2.1.accessToken = c9EmptyState.accessToken ∧
    (getToken c9EmptyState 0 c9FailExchange).2.1.tokenExpiry = c9EmptyState.tokenExpiry ∧
    (getToken c9EmptyState 0 c9FailExchange).2.1.refreshInFlight = none ∧
    (getToken c9EmptyState 0 c9FailExchange).2.2 = [] ∧
    c9ShortExchange c9Config = ExchangeResult.ok "tok" 10 ∧
    (getToken ((getToken c9EmptyState 0 c9FailExchange).2.1) 0 c9ShortExchange).1 =
      Except.ok "tok" := by
  obtain ⟨-, h2⟩ := c10_failure_keeps_state c9EmptyState 0 c9FailExchange rfl (by decide)
  obtain ⟨ha, hb, hc, hd, he⟩ := h2 c9Config 500 "boom" rfl rfl
  exact ⟨rfl, by decide, rfl, rfl, ha, hb, hc, hd, rfl, he c9ShortExchange "tok" 10 rfl⟩
